import Mathlib

set_option linter.unusedVariables false

/-!
Verification of the core logic of the Multidown single-page application
(src/src/App.jsx): the link extractor (`isVideoUrl`, `findDownloadLink`),
the resilient fetcher (`fetchWithBackups`), the query action
(`fetchVideoInfo`), the AI-content action (`generateAIContent`) and the
download orchestrator (`handleDownload`).  JSON documents are embedded as
a mutual inductive `JVal`; network effects are embedded as explicit
environment parameters describing each request's outcome.
-/

mutual

/-- Embedding of a JavaScript JSON value: string, number, boolean, null,
object (ordered field list, as JS objects preserve insertion order) or
array. -/
inductive JVal where
  | nullv : JVal
  | boolv (b : Bool) : JVal
  | num (n : Int) : JVal
  | str (s : String) : JVal
  | obj (fs : JFields) : JVal
  | arr (xs : JItems) : JVal

/-- Ordered field list of a JSON object. -/
inductive JFields where
  | nil : JFields
  | cons (key : String) (val : JVal) (rest : JFields) : JFields

/-- Element list of a JSON array. -/
inductive JItems where
  | nil : JItems
  | cons (head : JVal) (rest : JItems) : JItems

end

/-- JavaScript truthiness of a JSON value (`!obj`, `if (data.contents)`,
`||` chains all test this). -/
def jTruthy : JVal → Bool
  | JVal.nullv => false
  | JVal.boolv b => b
  | JVal.num n => !(n == 0)
  | JVal.str s => !(s == "")
  | JVal.obj _ => true
  | JVal.arr _ => true

/-- Whether the char list `l` begins with the char list `pat`. -/
def listLeadsWith : List Char → List Char → Bool
  | _, [] => true
  | [], _ :: _ => false
  | a :: as, b :: bs => a == b && listLeadsWith as bs

/-- Whether string `s` begins with string `pat` (embeds JS
`String.prototype.startsWith`). -/
def strLeadsWith (s pat : String) : Bool :=
  listLeadsWith s.data pat.data

/-- Whether string `s` ends with string `pat`. -/
def strTrailsWith (s pat : String) : Bool :=
  listLeadsWith s.data.reverse pat.data.reverse

/-- Character-wise lower-casing of a string (embeds JS
`String.prototype.toLowerCase`, and the effect of a case-insensitive
regex over ASCII literals). -/
def lowerStr (s : String) : String :=
  String.mk (s.data.map Char.toLower)

/-- Whether `needle` occurs as a contiguous substring of `hay` (embeds JS
`String.prototype.includes`). -/
def strContains (hay needle : String) : Bool :=
  (List.range (hay.data.length + 1)).any
    (fun i => listLeadsWith (hay.data.drop i) needle.data)

/-- The image-extension alternatives of the source regex
`/\.(jpg|jpeg|png|webp|gif|svg|bmp|tiff)$/i` (App.jsx line 62). -/
def imageExts : List String :=
  ["jpg", "jpeg", "png", "webp", "gif", "svg", "bmp", "tiff"]

/-- Whether the source's image-extension regex matches `s`: the regex is
anchored at the end of the string and case-insensitive, so it matches
exactly when the lower-cased string ends in a dot followed by one of the
alternatives. -/
def imageExtMatches (s : String) : Bool :=
  imageExts.any (fun ext => strTrailsWith (lowerStr s) ("." ++ ext))

/-- Embeds `isVideoUrl` (App.jsx lines 59-64) on a string argument:
accepted when it starts with `"http"` and the image-extension regex does
not match. -/
def isVideoUrlStr (s : String) : Bool :=
  strLeadsWith s "http" && !(imageExtMatches s)

/-- Embeds `isVideoUrl` (App.jsx lines 59-64) on an arbitrary value: the
`typeof string !== 'string'` guard rejects every non-string. -/
def isVideoUrl : JVal → Bool
  | JVal.str s => isVideoUrlStr s
  | _ => false

/-- JS property read `obj[key]` on an object's field list: the first
field with the given key (JS objects have unique keys, so first = only).
`none` plays the role of `undefined`. -/
def jlookup : JFields → String → Option JVal
  | JFields.nil, _ => none
  | JFields.cons k v rest, key => if k == key then some v else jlookup rest key

/-- One iteration of a key-probing loop in `findDownloadLink`
(`if (obj[key] && isVideoUrl(obj[key])) return obj[key]`): yields the
value when it is a truthy string passing `isVideoUrl`. -/
def keyCandidate (fs : JFields) (key : String) : Option String :=
  match jlookup fs key with
  | some (JVal.str s) =>
      if jTruthy (JVal.str s) && isVideoUrl (JVal.str s) then some s else none
  | _ => none

/-- A `for (const key of keys)` probing loop of `findDownloadLink`:
first key whose value passes `keyCandidate` wins. -/
def findByKeys : List String → JFields → Option String
  | [], _ => none
  | k :: ks, fs =>
      match keyCandidate fs k with
      | some s => some s
      | none => findByKeys ks fs

/-- The high-confidence key list of `findDownloadLink` (App.jsx line 76). -/
def priorityKeys : List String :=
  ["hd", "sd", "mp4", "video", "stream", "download_url", "download"]

/-- The generic key list of `findDownloadLink` (App.jsx line 84). -/
def genericKeys : List String :=
  ["url", "link", "src"]

/-- The keys whose subtrees the recursive search skips
(App.jsx line 95). -/
def excludedKeys : List String :=
  ["thumbnail", "image", "cover", "poster", "avatars", "author"]

mutual

/-- Embeds `findDownloadLink` (App.jsx lines 67-102).  Null, numbers and
booleans yield `null`: falsy ones through the `!obj` guard, truthy ones
because property reads on them are `undefined` and `typeof` is not
`'object'`.  A string is returned iff truthy and `isVideoUrl`.  An object
is probed with the priority keys, then the generic keys, then searched
recursively; an array has no string keys, so only the recursive `for..in`
loop (over its elements) applies. -/
def findDownloadLink : JVal → Option String
  | JVal.nullv => none
  | JVal.boolv _ => none
  | JVal.num _ => none
  | JVal.str s =>
      if s == "" then none
      else if isVideoUrlStr s then some s else none
  | JVal.obj fs =>
      match findByKeys priorityKeys fs with
      | some s => some s
      | none =>
          match findByKeys genericKeys fs with
          | some s => some s
          | none => findInFields fs
  | JVal.arr xs => findInItems xs

/-- The recursive `for (const key in obj)` loop of `findDownloadLink`
over an object's fields: skips fields whose lower-cased key is excluded,
otherwise recurses and returns the first hit. -/
def findInFields : JFields → Option String
  | JFields.nil => none
  | JFields.cons k v rest =>
      if excludedKeys.contains (lowerStr k) then findInFields rest
      else
        match findDownloadLink v with
        | some s => some s
        | none => findInFields rest

/-- The recursive loop of `findDownloadLink` over an array's elements. -/
def findInItems : JItems → Option String
  | JItems.nil => none
  | JItems.cons v rest =>
      match findDownloadLink v with
      | some s => some s
      | none => findInItems rest

end

mutual

/-- Erases, at every nesting depth, the fields whose lower-cased key is
in `excludedKeys`.  Stating that `findDownloadLink` is invariant under
this erasure expresses that the traversal never descends into (nor
otherwise uses) such subtrees. -/
def pruneExcluded : JVal → JVal
  | JVal.obj fs => JVal.obj (pruneFields fs)
  | JVal.arr xs => JVal.arr (pruneItems xs)
  | v => v

/-- Field-list part of `pruneExcluded`. -/
def pruneFields : JFields → JFields
  | JFields.nil => JFields.nil
  | JFields.cons k v rest =>
      if excludedKeys.contains (lowerStr k) then pruneFields rest
      else JFields.cons k (pruneExcluded v) (pruneFields rest)

/-- Array part of `pruneExcluded`. -/
def pruneItems : JItems → JItems
  | JItems.nil => JItems.nil
  | JItems.cons v rest => JItems.cons (pruneExcluded v) (pruneItems rest)

end

/-- Candidate predicate written from the specification's words: a value
is accepted iff it is a string that begins with the HTTP(S) scheme's
shared leading characters `"http"` and does not end, case-insensitively,
in one of the static-image suffixes.  Kept separate from `isVideoUrl`
(which is translated from the source) so the two can be compared. -/
def specAcceptsCandidate : JVal → Bool
  | JVal.str s =>
      strLeadsWith s "http" &&
        !(["jpg", "jpeg", "png", "webp", "gif", "svg", "bmp", "tiff"].any
            (fun ext => strTrailsWith (lowerStr s) ("." ++ ext)))
  | _ => false

/-- An HTTP response, as the fetching code observes it: the `res.ok`
flag, the `content-type` header (`none` embeds a `null` header) and the
result of `await res.json()` (`none` embeds a rejected body parse). -/
structure HttpResponse where
  ok : Bool
  contentType : Option String
  jsonBody : Option JVal

/-- Outcome of one `fetch` call: the promise rejects (network/CORS
fault), or resolves to a response. -/
inductive FetchOutcome where
  | networkError : FetchOutcome
  | success (r : HttpResponse) : FetchOutcome

/-- Strategy 1 of `fetchWithBackups` (App.jsx lines 107-117): the direct
request yields data only when the response is ok, its content type is a
string containing `"application/json"`, and the body parses; every other
path (including a body-parse throw, which the surrounding `try` catches)
falls through to the next strategy. -/
def tryDirect : FetchOutcome → Option JVal
  | FetchOutcome.networkError => none
  | FetchOutcome.success r =>
      if r.ok then
        match r.contentType with
        | some ct =>
            if !(ct == "") && strContains ct "application/json" then r.jsonBody
            else none
        | none => none
      else none

/-- Strategy 2 of `fetchWithBackups` (App.jsx lines 120-128): the proxy-A
request yields data when the response is ok and the body parses. -/
def tryProxyA : FetchOutcome → Option JVal
  | FetchOutcome.networkError => none
  | FetchOutcome.success r => if r.ok then r.jsonBody else none

/-- JS property read on an arbitrary value: `undefined` (`none`) unless
the value is an object owning the key. -/
def jgetD : JVal → String → Option JVal
  | JVal.obj fs, key => jlookup fs key
  | _, _ => none

/-- Strategy 3 of `fetchWithBackups` (App.jsx lines 131-146): the proxy-B
request yields data when the response is ok, its body parses to an
envelope with a truthy `contents` field, and `JSON.parse` applied to that
field's value succeeds; `JSON.parse` is kept abstract as the `jsonParse`
parameter.  A parse throw is caught by the inner `catch` and the strategy
fails. -/
def tryProxyB (jsonParse : JVal → Option JVal) : FetchOutcome → Option JVal
  | FetchOutcome.networkError => none
  | FetchOutcome.success r =>
      if r.ok then
        match r.jsonBody with
        | some data =>
            match jgetD data "contents" with
            | some c =>
                if jTruthy c then
                  match jsonParse c with
                  | some v => some v
                  | none => none
                else none
            | none => none
        | none => none
      else none

/-- The single unified error message of `fetchWithBackups`
(App.jsx line 148). -/
def fetchFailureMsg : String :=
  "Unable to fetch video info. Network might be blocked or URL is invalid."

/-- Embeds `fetchWithBackups` (App.jsx lines 105-149): the three
strategies in order, first success wins, otherwise the one unified
error. -/
def fetchWithBackups (jsonParse : JVal → Option JVal)
    (direct proxyA proxyB : FetchOutcome) : Except String JVal :=
  match tryDirect direct with
  | some v => Except.ok v
  | none =>
      match tryProxyA proxyA with
      | some v => Except.ok v
      | none =>
          match tryProxyB jsonParse proxyB with
          | some v => Except.ok v
          | none => Except.error fetchFailureMsg

/-- Embeds JS `String.prototype.trim`: drops whitespace from both
ends. -/
def jsTrim (s : String) : String :=
  String.mk
    (((s.data.dropWhile Char.isWhitespace).reverse.dropWhile
        Char.isWhitespace).reverse)

/-- The characters deleted by the filename sanitizing replace
`/[\/\\:*?"<>|]/g` (App.jsx line 268). -/
def illegalFileChars : List Char :=
  ['/', '\\', ':', '*', '?', '"', '<', '>', '|']

/-- Deletes the illegal filename characters from a string. -/
def stripIllegal (s : String) : String :=
  String.mk (s.data.filter (fun c => !(illegalFileChars.contains c)))

/-- First `n` characters of a string (embeds `substring(0, n)`). -/
def takeChars (n : Nat) (s : String) : String :=
  String.mk (s.data.take n)

/-- The decimal digit character for `d % 10`-style arguments. -/
def digitChar : Nat → Char
  | 0 => '0'
  | 1 => '1'
  | 2 => '2'
  | 3 => '3'
  | 4 => '4'
  | 5 => '5'
  | 6 => '6'
  | 7 => '7'
  | 8 => '8'
  | _ => '9'

/-- Fuel-driven most-significant-first decimal digit list of `n`; any
fuel at least the digit count of `n` is exact, and `natDec` passes
`n` itself. -/
def natDecAux : Nat → Nat → List Char
  | 0, _ => []
  | fuel + 1, n =>
      if n == 0 then []
      else natDecAux fuel (n / 10) ++ [digitChar (n % 10)]

/-- Embeds the JS number-to-string conversion performed by the template
literal interpolation of the suffix, for natural numbers: the usual
decimal numeral. -/
def natDec (n : Nat) : String :=
  if n == 0 then "0" else String.mk (natDecAux n n)

/-- Embeds the filename computation of `handleDownload`
(App.jsx lines 268-273, repeated at 297-300 and 312-315): substitute
`'video'` for a falsy input, delete illegal characters, truncate to 50,
trim, substitute `'video'` if empty, then append `_`, the random suffix
and `.mp4`. -/
def safeFileName (fileName : String) (uniqueSuffix : Nat) : String :=
  let sanitizedName := stripIllegal (if fileName == "" then "video" else fileName)
  let baseName :=
    let t := jsTrim (takeChars 50 sanitizedName)
    if t == "" then "video" else t
  baseName ++ "_" ++ natDec uniqueSuffix ++ ".mp4"

/-- Filename computation written from the specification's words: strip
illegal characters, truncate to 50, trim, substitute the placeholder if
empty, append separator, suffix and extension.  Kept separate from
`safeFileName` (translated from the source) so the two can be
compared. -/
def specFileName (fileName : String) (uniqueSuffix : Nat) : String :=
  let stripped := stripIllegal fileName
  let truncated := takeChars 50 stripped
  let trimmed := jsTrim truncated
  let base := if trimmed == "" then "video" else trimmed
  base ++ "_" ++ natDec uniqueSuffix ++ ".mp4"

/-- The derived extraction result (`setResult` argument, App.jsx lines
172-178).  `downloadUrl` is the extractor's hit; the other fields are
loosely-typed values picked off the document. -/
structure ExtractionResult where
  downloadUrl : String
  title : JVal
  thumbnail : JVal
  author : JVal
  source : JVal

/-- The component's state hooks (App.jsx lines 30-39). -/
structure AppState where
  url : String
  loading : Bool
  error : Option String
  result : Option ExtractionResult
  downloading : Bool
  aiLoading : Bool
  aiOutput : Option JVal
  aiMode : Option String

/-- A `a || b || ...` chain over property reads: first key whose value
exists and is truthy wins. -/
def firstTruthyKey (d : JVal) : List String → Option JVal
  | [] => none
  | k :: ks =>
      match jgetD d k with
      | some v => if jTruthy v then some v else firstTruthyKey d ks
      | none => firstTruthyKey d ks

/-- The extraction-failure message (App.jsx line 184). -/
def extractionFailMsg : String :=
  "Could not find a valid video link. The link might be private or an image."

/-- The fallback error message of the query action's catch
(App.jsx line 189). -/
def unexpectedErrorMsg : String :=
  "An unexpected error occurred. Please check the URL."

/-- The synchronous head of `fetchVideoInfo` past its guard
(App.jsx lines 154-157): loading on, error, result and AI output
cleared — all before the metadata request is issued. -/
def fetchVideoInfoStart (s : AppState) : AppState :=
  { s with loading := true, error := none, result := none, aiOutput := none }

/-- The continuation of `fetchVideoInfo` once the awaited
`fetchWithBackups` settles (App.jsx lines 161-192): on data, extract the
link and fields and set the result, or set the extraction-failure error;
on a fetch error, set its message (or the fallback message if empty);
always clear loading. -/
def fetchVideoInfoFinish (s : AppState) (fetched : Except String JVal) : AppState :=
  match fetched with
  | Except.error msg =>
      { s with
          error := some (if msg == "" then unexpectedErrorMsg else msg),
          loading := false }
  | Except.ok data =>
      match findDownloadLink data with
      | some u =>
          { s with
              result := some
                { downloadUrl := u,
                  title := (firstTruthyKey data ["title", "text", "caption"]).getD
                    (JVal.str "Downloaded Video"),
                  thumbnail := (firstTruthyKey data
                    ["thumbnail", "image", "cover"]).getD JVal.nullv,
                  author := (firstTruthyKey data ["author"]).getD
                    (JVal.str "Unknown"),
                  source := data },
              loading := false }
      | none =>
          { s with error := some extractionFailMsg, loading := false }

/-- The fetch environment a run of `fetchVideoInfo` sees: the abstract
`JSON.parse` and the outcome of each strategy's request. -/
structure FetchEnv where
  jsonParse : JVal → Option JVal
  direct : FetchOutcome
  proxyA : FetchOutcome
  proxyB : FetchOutcome

/-- Embeds `fetchVideoInfo` (App.jsx lines 151-193): a no-op when the
trimmed url is empty, otherwise the synchronous head followed by the
continuation on the fetch outcome. -/
def fetchVideoInfo (env : FetchEnv) (s : AppState) : AppState :=
  if jsTrim s.url == "" then s
  else
    fetchVideoInfoFinish (fetchVideoInfoStart s)
      (fetchWithBackups env.jsonParse env.direct env.proxyA env.proxyB)

/-- First element of an array value (`xs?.[0]`), `undefined` on anything
else. -/
def jIndex0 : JVal → Option JVal
  | JVal.arr (JItems.cons h _) => some h
  | _ => none

/-- The response-field navigation of `generateAIContent`
(`data.candidates?.[0]?.content?.parts?.[0]?.text`, App.jsx line 233). -/
def extractAiText (data : JVal) : Option JVal :=
  match jgetD data "candidates" with
  | none => none
  | some c =>
      match jIndex0 c with
      | none => none
      | some c0 =>
          match jgetD c0 "content" with
          | none => none
          | some ct =>
              match jgetD ct "parts" with
              | none => none
              | some p =>
                  match jIndex0 p with
                  | none => none
                  | some p0 => jgetD p0 "text"

/-- The inline failure text `generateAIContent` shows in the AI-output
area (App.jsx line 246). -/
def aiFailureMsg : String :=
  "AI feature requires a valid API Key in src/App.jsx code. Please add it to use this feature."

/-- Environment of a `generateAIContent` run: the configured credential
(the shipped source hardcodes `""`; deployment fills it in) and the
outcome of the upstream POST.  The prompt string only shapes that
external request, which `response` abstracts. -/
structure AiEnv where
  apiKey : String
  response : FetchOutcome

/-- The successful path of the try block of `generateAIContent`: `some`
of the upstream text when the credential is set, the POST resolves ok,
its body parses, and the navigated text field is present and truthy;
`none` on every throwing path (the surrounding catch absorbs the
throw). -/
def aiFetchedText (env : AiEnv) : Option JVal :=
  if env.apiKey == "" then none
  else
    match env.response with
    | FetchOutcome.networkError => none
    | FetchOutcome.success r =>
        if r.ok then
          match r.jsonBody with
          | none => none
          | some data =>
              match extractAiText data with
              | some t => if jTruthy t then some t else none
              | none => none
        else none

/-- Embeds `generateAIContent` (App.jsx lines 196-250): a no-op without
a current result; otherwise AI loading on, mode recorded, output
cleared, then either the upstream text (present and truthy) or — via the
catch that absorbs the missing-credential, failed-call, unparsable-body
and missing-field throws — the fixed inline failure text; the `finally`
clears AI loading. -/
def generateAIContent (env : AiEnv) (mode : String) (s : AppState) : AppState :=
  match s.result with
  | none => s
  | some _ =>
      let s1 := { s with aiLoading := true, aiMode := some mode, aiOutput := none }
      let s2 :=
        match aiFetchedText env with
        | some t => { s1 with aiOutput := some t }
        | none => { s1 with aiOutput := some (JVal.str aiFailureMsg) }
      { s2 with aiLoading := false }

/-- A binary (blob) response, as `handleDownload` observes it: only the
`res.ok` flag matters to control flow. -/
structure BinResponse where
  ok : Bool

/-- Outcome of one binary `fetch`: rejection (commonly CORS) or a
response. -/
inductive BinOutcome where
  | networkError : BinOutcome
  | success (r : BinResponse) : BinOutcome

/-- Environment of a `handleDownload` run: the outcomes of the direct
and the proxy-tunneled binary fetches, and the three draws of
`Math.floor(Math.random() * 10000)`. -/
structure DownloadEnv where
  direct : BinOutcome
  proxied : BinOutcome
  suffix1 : Nat
  suffix2 : Nat
  suffix3 : Nat

/-- The externally visible action a `handleDownload` run ends in. -/
inductive DownloadAction where
  | savedBlobDirect (fileName : String) : DownloadAction
  | savedBlobViaProxy (fileName : String) : DownloadAction
  | openedNewTab (href : String) (suggestedName : String) : DownloadAction

/-- Method 1 of `handleDownload` (App.jsx lines 276-281): direct blob
fetch; a rejected fetch or a non-ok response throws (`Direct fetch
failed`), otherwise the blob is saved under the computed name. -/
def directBlobAttempt (o : BinOutcome) (fileUrl fileName : String)
    (suffix : Nat) : Except String DownloadAction :=
  match o with
  | BinOutcome.networkError => Except.error "Failed to fetch"
  | BinOutcome.success r =>
      if r.ok then Except.ok (DownloadAction.savedBlobDirect (safeFileName fileName suffix))
      else Except.error "Direct fetch failed"

/-- Method 2 of `handleDownload` (App.jsx lines 287-302): identical but
through proxy A, with a freshly computed name. -/
def proxyBlobAttempt (o : BinOutcome) (fileUrl fileName : String)
    (suffix : Nat) : Except String DownloadAction :=
  match o with
  | BinOutcome.networkError => Except.error "Failed to fetch"
  | BinOutcome.success r =>
      if r.ok then Except.ok (DownloadAction.savedBlobViaProxy (safeFileName fileName suffix))
      else Except.error "Proxy fetch failed"

/-- Embeds `handleDownload` (App.jsx lines 264-327): downloading on,
method 1; its catch runs method 2; the nested catch runs method 3 (the
new-tab link, which cannot fail); the `finally` clears downloading.  The
returned action is total — no error escapes to the caller and none is
recorded in the state. -/
def handleDownload (env : DownloadEnv) (fileUrl fileName : String)
    (s : AppState) : AppState × DownloadAction :=
  let s1 := { s with downloading := true }
  let act :=
    match directBlobAttempt env.direct fileUrl fileName env.suffix1 with
    | Except.ok a => a
    | Except.error _ =>
        match proxyBlobAttempt env.proxied fileUrl fileName env.suffix2 with
        | Except.ok a => a
        | Except.error _ =>
            DownloadAction.openedNewTab fileUrl (safeFileName fileName env.suffix3)
  ({ s1 with downloading := false }, act)

/-!
Helper lemmas.
-/

/-- Pruning does not disturb a key probe at a non-excluded key: an erased
field's lower-cased key is excluded, so it can never be the probed key. -/
theorem jlookup_pruneFields (k : String)
    (h : excludedKeys.contains (lowerStr k) = false) :
    (fs : JFields) →
      jlookup (pruneFields fs) k = Option.map pruneExcluded (jlookup fs k)
  | JFields.nil => rfl
  | JFields.cons k' v rest => by
      by_cases hc : excludedKeys.contains (lowerStr k') = true
      · have hk : (k' == k) = false := by
          rcases Bool.eq_false_or_eq_true (k' == k) with ht | hf
          · have hkk : k' = k := eq_of_beq ht
            rw [hkk, h] at hc
            exact absurd hc (by simp)
          · exact hf
        simp only [pruneFields, hc, if_true, jlookup, hk, Bool.false_eq_true,
          if_false]
        exact jlookup_pruneFields k h rest
      · rw [Bool.not_eq_true] at hc
        by_cases hk : (k' == k) = true
        · simp only [pruneFields, hc, Bool.false_eq_true, if_false, jlookup,
            hk, if_true, Option.map]
        · rw [Bool.not_eq_true] at hk
          simp only [pruneFields, hc, Bool.false_eq_true, if_false, jlookup,
            hk]
          exact jlookup_pruneFields k h rest

/-- Pruning does not disturb a `keyCandidate` probe at a non-excluded
key: the probed value is either unchanged (a string) or stays a
non-string. -/
theorem keyCandidate_pruneFields (k : String)
    (h : excludedKeys.contains (lowerStr k) = false) (fs : JFields) :
    keyCandidate (pruneFields fs) k = keyCandidate fs k := by
  unfold keyCandidate
  rw [jlookup_pruneFields k h fs]
  cases hl : jlookup fs k with
  | none => rfl
  | some v => cases v <;> rfl

/-- Pruning does not disturb a probing loop over non-excluded keys. -/
theorem findByKeys_pruneFields :
    (ks : List String) →
      ks.all (fun k => !(excludedKeys.contains (lowerStr k))) = true →
      (fs : JFields) → findByKeys ks (pruneFields fs) = findByKeys ks fs
  | [], _, _ => rfl
  | k :: ks, h, fs => by
      rw [List.all_cons, Bool.and_eq_true] at h
      have hk : excludedKeys.contains (lowerStr k) = false := by
        have := h.1
        rwa [Bool.not_eq_eq_eq_not, Bool.not_true] at this
      simp only [findByKeys, keyCandidate_pruneFields k hk fs]
      cases keyCandidate fs k with
      | some s => rfl
      | none => exact findByKeys_pruneFields ks h.2 fs

mutual

/-- `findDownloadLink` is invariant under erasing every excluded-key
subtree: the traversal never descends into such subtrees, and the key
probes never touch an excluded key. -/
theorem findDownloadLink_pruneExcluded : (v : JVal) →
    findDownloadLink (pruneExcluded v) = findDownloadLink v
  | JVal.nullv => rfl
  | JVal.boolv _ => rfl
  | JVal.num _ => rfl
  | JVal.str _ => rfl
  | JVal.obj fs => by
      show findDownloadLink (JVal.obj (pruneFields fs)) =
        findDownloadLink (JVal.obj fs)
      simp only [findDownloadLink]
      rw [findByKeys_pruneFields priorityKeys (by decide) fs,
        findByKeys_pruneFields genericKeys (by decide) fs,
        findInFields_pruneFields fs]
  | JVal.arr xs => by
      show findDownloadLink (JVal.arr (pruneItems xs)) =
        findDownloadLink (JVal.arr xs)
      simp only [findDownloadLink]
      exact findInItems_pruneItems xs

/-- Field-list part of `findDownloadLink_pruneExcluded`. -/
theorem findInFields_pruneFields : (fs : JFields) →
    findInFields (pruneFields fs) = findInFields fs
  | JFields.nil => rfl
  | JFields.cons k v rest => by
      by_cases hc : excludedKeys.contains (lowerStr k) = true
      · simp only [pruneFields, findInFields, hc, if_true]
        exact findInFields_pruneFields rest
      · rw [Bool.not_eq_true] at hc
        simp only [pruneFields, findInFields, hc, Bool.false_eq_true,
          if_false]
        rw [findDownloadLink_pruneExcluded v]
        cases findDownloadLink v with
        | some s => rfl
        | none => exact findInFields_pruneFields rest

/-- Array part of `findDownloadLink_pruneExcluded`. -/
theorem findInItems_pruneItems : (xs : JItems) →
    findInItems (pruneItems xs) = findInItems xs
  | JItems.nil => rfl
  | JItems.cons v rest => by
      simp only [pruneItems, findInItems]
      rw [findDownloadLink_pruneExcluded v]
      cases findDownloadLink v with
      | some s => rfl
      | none => exact findInItems_pruneItems rest

end

/-- Every digit character produced for a `% 10` argument is a decimal
digit. -/
theorem digitChar_isDigit : (r : Nat) → (digitChar r).isDigit = true
  | 0 => rfl
  | 1 => rfl
  | 2 => rfl
  | 3 => rfl
  | 4 => rfl
  | 5 => rfl
  | 6 => rfl
  | 7 => rfl
  | 8 => rfl
  | _ + 9 => rfl

/-- The digit list of `n` has at most `k` entries when `n < 10 ^ k`. -/
theorem natDecAux_length_le : (fuel k n : Nat) → n < 10 ^ k →
    (natDecAux fuel n).length ≤ k
  | 0, k, n, _ => by simp [natDecAux]
  | fuel + 1, k, n, h => by
      by_cases h0 : (n == 0) = true
      · simp [natDecAux, h0]
      · have hn : n ≠ 0 := by simpa using h0
        match k with
        | 0 =>
            rw [pow_zero] at h
            exact absurd (Nat.lt_one_iff.mp h) hn
        | k' + 1 =>
            have hdiv : n / 10 < 10 ^ k' := by
              rw [Nat.div_lt_iff_lt_mul (by norm_num)]
              rw [pow_succ] at h
              exact h
            have ih := natDecAux_length_le fuel k' (n / 10) hdiv
            rw [Bool.not_eq_true] at h0
            simp only [natDecAux, h0, Bool.false_eq_true, if_false,
              List.length_append, List.length_cons, List.length_nil]
            omega

/-- Every entry of the digit list is a decimal digit. -/
theorem natDecAux_all_digit : (fuel n : Nat) →
    (natDecAux fuel n).all Char.isDigit = true
  | 0, _ => rfl
  | fuel + 1, n => by
      by_cases h0 : (n == 0) = true
      · simp [natDecAux, h0]
      · rw [Bool.not_eq_true] at h0
        simp [natDecAux, h0, natDecAux_all_digit fuel (n / 10),
          digitChar_isDigit]

/-- The decimal numeral of `n < 10000` has between 1 and 4 characters,
all digits. -/
theorem natDec_shape (n : Nat) (h : n < 10000) :
    1 ≤ (natDec n).length ∧ (natDec n).length ≤ 4 ∧
      (natDec n).data.all Char.isDigit = true := by
  unfold natDec
  by_cases h0 : (n == 0) = true
  · simp only [h0, if_true]
    exact ⟨by decide, by decide, by decide⟩
  · rw [Bool.not_eq_true] at h0
    have hn : n ≠ 0 := by simpa using h0
    simp only [h0, Bool.false_eq_true, if_false]
    refine ⟨?_, ?_, ?_⟩
    · match hfuel : n, hn with
      | m + 1, _ =>
          show 1 ≤ (String.mk (natDecAux (m + 1) (m + 1))).length
          by_cases hm : (m + 1 == 0) = true
          · simp at hm
          · rw [Bool.not_eq_true] at hm
            simp [String.length, natDecAux, hm]
    · have := natDecAux_length_le n 4 n (by norm_num at h ⊢; omega)
      simpa [String.length] using this
    · exact natDecAux_all_digit n n

/-- The source's filename computation agrees with the specification's
pipeline on every input: the source's extra up-front substitution of
`'video'` for a falsy input only matters for the empty string, where
both pipelines end in the placeholder anyway. -/
theorem safeFileName_eq_spec (s : String) (n : Nat) :
    safeFileName s n = specFileName s n := by
  by_cases h : s = ""
  · subst h
    rfl
  · have hb : (s == "") = false := by
      rcases Bool.eq_false_or_eq_true (s == "") with ht | hf
      · exact absurd (eq_of_beq ht) h
      · exact hf
    simp only [safeFileName, specFileName, hb, Bool.false_eq_true, if_false]

/-!
The claims.
-/

/-- C1: every document with a key `hd` holding the string
`"https://x/a.mp4"` and a nested `thumbnail` mapping with a key `url`
holding `"https://x/a.jpg"` extracts `"https://x/a.mp4"`: `hd` is the
first priority key, so it is matched before any generic-key or recursive
search and the thumbnail subtree is never the source of the result. -/
theorem claim_C1 (fs tfs : JFields)
    (hhd : jlookup fs "hd" = some (JVal.str "https://x/a.mp4"))
    (hth : jlookup fs "thumbnail" = some (JVal.obj tfs))
    (hurl : jlookup tfs "url" = some (JVal.str "https://x/a.jpg")) :
    findDownloadLink (JVal.obj fs) = some "https://x/a.mp4" := by
  have hcand : keyCandidate fs "hd" = some "https://x/a.mp4" := by
    unfold keyCandidate
    rw [hhd]
    rfl
  simp only [findDownloadLink, priorityKeys, findByKeys, hcand]

/-- Witness for C1 at a concrete document. -/
theorem claim_C1_witness :
    findDownloadLink (JVal.obj (JFields.cons "hd" (JVal.str "https://x/a.mp4")
        (JFields.cons "thumbnail" (JVal.obj (JFields.cons "url"
          (JVal.str "https://x/a.jpg") JFields.nil)) JFields.nil))) =
      some "https://x/a.mp4" :=
  claim_C1 _ (JFields.cons "url" (JVal.str "https://x/a.jpg") JFields.nil)
    rfl rfl rfl

/-- C2: a string is accepted by the candidate test exactly when it
begins with the HTTP(S) scheme's leading characters and does not end,
case-insensitively, in one of the static-image suffixes; every
non-string value is rejected. -/
theorem claim_C2 :
    (∀ s : String, isVideoUrl (JVal.str s) = true ↔
      (strLeadsWith s "http" = true ∧
        ∀ ext ∈ (["jpg", "jpeg", "png", "webp", "gif", "svg", "bmp",
            "tiff"] : List String),
          strTrailsWith (lowerStr s) ("." ++ ext) = false)) ∧
    (∀ v : JVal, (∀ s : String, v ≠ JVal.str s) → isVideoUrl v = false) := by
  constructor
  · intro s
    show isVideoUrlStr s = true ↔ _
    constructor
    · intro hs
      unfold isVideoUrlStr imageExtMatches at hs
      rw [Bool.and_eq_true] at hs
      refine ⟨hs.1, ?_⟩
      intro ext hext
      cases ht : strTrailsWith (lowerStr s) ("." ++ ext)
      · rfl
      · exfalso
        have hany : imageExts.any
            (fun e => strTrailsWith (lowerStr s) ("." ++ e)) = true := by
          rw [List.any_eq_true]
          exact ⟨ext, hext, ht⟩
        rw [hany] at hs
        exact absurd hs.2 (by simp)
    · rintro ⟨h1, h2⟩
      unfold isVideoUrlStr imageExtMatches
      rw [Bool.and_eq_true]
      refine ⟨h1, ?_⟩
      cases ha : imageExts.any (fun e => strTrailsWith (lowerStr s) ("." ++ e))
      · rfl
      · rw [List.any_eq_true] at ha
        obtain ⟨ext, hm, hp⟩ := ha
        rw [h2 ext hm] at hp
        exact absurd hp (by simp)
  · intro v hv
    cases v with
    | str s => exact absurd rfl (hv s)
    | nullv => rfl
    | boolv b => rfl
    | num n => rfl
    | obj fs => rfl
    | arr xs => rfl

/-- Witness for C2: an accepted video URL and a rejected non-string. -/
theorem claim_C2_witness :
    isVideoUrl (JVal.str "https://x/a.mp4") = true ∧
    isVideoUrl (JVal.num 3) = false :=
  ⟨(claim_C2.1 "https://x/a.mp4").mpr ⟨by decide, by decide⟩,
   claim_C2.2 (JVal.num 3) (fun s h => JVal.noConfusion h)⟩

/-- C3: the traversal never descends into a value stored under a key
whose lower-cased name is excluded, at any depth — erasing all such
subtrees never changes the extractor's result — and on the document
`{ video: { author: "https://evil/a.mp4" } }` the extractor returns
absent. -/
theorem claim_C3 :
    (∀ d : JVal, findDownloadLink (pruneExcluded d) = findDownloadLink d) ∧
    findDownloadLink (JVal.obj (JFields.cons "video"
        (JVal.obj (JFields.cons "author" (JVal.str "https://evil/a.mp4")
          JFields.nil)) JFields.nil)) = none :=
  ⟨findDownloadLink_pruneExcluded, rfl⟩

/-- Witness for C3 at a concrete document with a thumbnail subtree. -/
theorem claim_C3_witness :
    findDownloadLink (pruneExcluded (JVal.obj (JFields.cons "thumbnail"
        (JVal.str "https://x/t.mp4") JFields.nil))) =
      findDownloadLink (JVal.obj (JFields.cons "thumbnail"
        (JVal.str "https://x/t.mp4") JFields.nil)) :=
  claim_C3.1 (JVal.obj (JFields.cons "thumbnail" (JVal.str "https://x/t.mp4")
    JFields.nil))

/-- C4: a direct response with success status whose content type does
not indicate JSON is treated as a failure of the direct strategy — its
body is never parsed (the outcome is the same for every body) and the
fetcher proceeds exactly as if the direct request had failed, i.e. to
proxy strategy A. -/
theorem claim_C4 (jp : JVal → Option JVal) (ct : String) (jb : Option JVal)
    (a b : FetchOutcome)
    (hct : strContains ct "application/json" = false) :
    tryDirect (FetchOutcome.success ⟨true, some ct, jb⟩) = none ∧
    fetchWithBackups jp (FetchOutcome.success ⟨true, some ct, jb⟩) a b =
      fetchWithBackups jp FetchOutcome.networkError a b := by
  have h1 : tryDirect (FetchOutcome.success ⟨true, some ct, jb⟩) = none := by
    unfold tryDirect
    simp [hct]
  refine ⟨h1, ?_⟩
  unfold fetchWithBackups
  rw [h1]
  rfl

/-- Witness for C4: HTTP 200 with `text/html`. -/
theorem claim_C4_witness :
    tryDirect (FetchOutcome.success ⟨true, some "text/html",
        some (JVal.str "x")⟩) = none ∧
    fetchWithBackups (fun _ => none) (FetchOutcome.success ⟨true,
        some "text/html", some (JVal.str "x")⟩) FetchOutcome.networkError
        FetchOutcome.networkError =
      fetchWithBackups (fun _ => none) FetchOutcome.networkError
        FetchOutcome.networkError FetchOutcome.networkError :=
  claim_C4 (fun _ => none) "text/html" (some (JVal.str "x"))
    FetchOutcome.networkError FetchOutcome.networkError (by decide)

/-- C5: when proxy B responds ok with an envelope whose `contents`
string does not parse as JSON, that is a failure of the proxy-B strategy
(the parse fault does not escape), and with the other two strategies
also failed the fetcher returns the single unified failure message. -/
theorem claim_C5 (jp : JVal → Option JVal) (d a : FetchOutcome)
    (ctB : Option String) (data : JVal) (s : String)
    (hd : tryDirect d = none) (ha : tryProxyA a = none)
    (hc : jgetD data "contents" = some (JVal.str s))
    (hparse : jp (JVal.str s) = none) :
    fetchWithBackups jp d a (FetchOutcome.success ⟨true, ctB, some data⟩) =
      Except.error fetchFailureMsg := by
  have hb : tryProxyB jp (FetchOutcome.success ⟨true, ctB, some data⟩) = none := by
    simp [tryProxyB, hc, hparse]
  simp [fetchWithBackups, hd, ha, hb]

/-- Witness for C5: proxy B returns `{ contents: "not valid json" }`
under a parser rejecting it; the other strategies reject at the network
level. -/
theorem claim_C5_witness :
    fetchWithBackups (fun _ => none) FetchOutcome.networkError
        FetchOutcome.networkError (FetchOutcome.success ⟨true, none,
          some (JVal.obj (JFields.cons "contents"
            (JVal.str "not valid json") JFields.nil))⟩) =
      Except.error fetchFailureMsg :=
  claim_C5 (fun _ => none) FetchOutcome.networkError FetchOutcome.networkError
    none (JVal.obj (JFields.cons "contents" (JVal.str "not valid json")
      JFields.nil)) "not valid json" rfl rfl rfl rfl

/-- C6: the computed filename deletes the illegal characters, truncates
to 50, trims, substitutes the placeholder `video` when empty, then
appends an underscore, the random suffix and `.mp4`; and the title
`My/Video:Clip*Name?` yields `MyVideoClipName_<1-4 digits>.mp4` for
every suffix in 0..9999. -/
theorem claim_C6 :
    (∀ s n, safeFileName s n = specFileName s n) ∧
    (∀ n, n < 10000 →
      safeFileName "My/Video:Clip*Name?" n =
        "MyVideoClipName_" ++ natDec n ++ ".mp4" ∧
      1 ≤ (natDec n).length ∧ (natDec n).length ≤ 4 ∧
      (natDec n).data.all Char.isDigit = true) := by
  refine ⟨safeFileName_eq_spec, ?_⟩
  intro n hn
  obtain ⟨h1, h2, h3⟩ := natDec_shape n hn
  exact ⟨rfl, h1, h2, h3⟩

/-- Witness for C6 at suffix 4217. -/
theorem claim_C6_witness :
    safeFileName "My/Video:Clip*Name?" 4217 = "MyVideoClipName_4217.mp4" := by
  have h := (claim_C6.2 4217 (by norm_num)).1
  rw [h]
  rfl

/-- C7: for a query whose text is non-empty after trimming, the query
action clears the previous result, the previous error and the derived
AI output in its synchronous head — before the metadata request is
issued — and the whole action is that head followed by the continuation
on the request's outcome, so no stale result is visible against the new
query. -/
theorem claim_C7 (env : FetchEnv) (s : AppState) (h : jsTrim s.url ≠ "") :
    (fetchVideoInfoStart s).result = none ∧
    (fetchVideoInfoStart s).error = none ∧
    (fetchVideoInfoStart s).aiOutput = none ∧
    (fetchVideoInfoStart s).url = s.url ∧
    fetchVideoInfo env s =
      fetchVideoInfoFinish (fetchVideoInfoStart s)
        (fetchWithBackups env.jsonParse env.direct env.proxyA env.proxyB) := by
  refine ⟨rfl, rfl, rfl, rfl, ?_⟩
  have hb : (jsTrim s.url == "") = false := by
    rcases Bool.eq_false_or_eq_true (jsTrim s.url == "") with ht | hf
    · exact absurd (eq_of_beq ht) h
    · exact hf
  simp [fetchVideoInfo, hb]

/-- Witness for C7: a state carrying a stale result, error and AI
output, cleared by the head of a new query. -/
theorem claim_C7_witness :
    jsTrim "https://tiktok.com/@a/video/123" ≠ "" ∧
    (fetchVideoInfoStart ⟨"https://tiktok.com/@a/video/123", false,
        some "old error", some ⟨"https://old/v.mp4", JVal.nullv, JVal.nullv,
          JVal.nullv, JVal.nullv⟩, false, false, some (JVal.str "old"),
        none⟩).result = none := by
  refine ⟨by decide, ?_⟩
  exact (claim_C7 ⟨fun _ => none, FetchOutcome.networkError,
    FetchOutcome.networkError, FetchOutcome.networkError⟩ _ (by decide)).1

/-- C8: the download orchestrator is total — it returns an action for
every combination of outcomes of the two binary fetches, so no error
reaches the caller and none is recorded in the state — the final state
is the input state with the downloading flag false, and when both binary
strategies fail the action is the new-tab fallback on the media URL. -/
theorem claim_C8 (env : DownloadEnv) (fileUrl fileName : String)
    (s : AppState) :
    (handleDownload env fileUrl fileName s).1 =
      { s with downloading := false } ∧
    (∀ m1 m2 : String,
      directBlobAttempt env.direct fileUrl fileName env.suffix1 =
        Except.error m1 →
      proxyBlobAttempt env.proxied fileUrl fileName env.suffix2 =
        Except.error m2 →
      (handleDownload env fileUrl fileName s).2 =
        DownloadAction.openedNewTab fileUrl
          (safeFileName fileName env.suffix3)) := by
  constructor
  · rfl
  · intro m1 m2 h1 h2
    simp [handleDownload, h1, h2]

/-- Witness for C8: a CORS-blocked direct fetch and a non-ok proxy
response. -/
theorem claim_C8_witness :
    (handleDownload ⟨BinOutcome.networkError, BinOutcome.success ⟨false⟩,
        1, 2, 3⟩ "https://cdn/v.mp4" "Cool"
        ⟨"u", false, none, none, false, false, none, none⟩).2 =
      DownloadAction.openedNewTab "https://cdn/v.mp4" (safeFileName "Cool" 3) :=
  (claim_C8 ⟨BinOutcome.networkError, BinOutcome.success ⟨false⟩, 1, 2, 3⟩
    "https://cdn/v.mp4" "Cool"
    ⟨"u", false, none, none, false, false, none, none⟩).2
    "Failed to fetch" "Proxy fetch failed" rfl rfl

/-- C9: an AI-generation invocation only ever changes the AI-related
fields (aiLoading, aiMode, aiOutput) — the current result, the query
text, the query error, the loading and downloading flags are untouched —
and with the credential missing the failure is surfaced as the fixed
inline text in the AI-output area. -/
theorem claim_C9 (env : AiEnv) (mode : String) (s : AppState) :
    (∃ al am ao, generateAIContent env mode s =
      { s with aiLoading := al, aiMode := am, aiOutput := ao }) ∧
    (env.apiKey = "" → s.result ≠ none →
      (generateAIContent env mode s).aiOutput = some (JVal.str aiFailureMsg)) := by
  cases hres : s.result with
  | none =>
      constructor
      · refine ⟨s.aiLoading, s.aiMode, s.aiOutput, ?_⟩
        have hid : generateAIContent env mode s = s := by
          unfold generateAIContent
          rw [hres]
        rw [hid, ← hres]
      · intro _ hr
        exact absurd rfl hr
  | some r =>
      have hkey : env.apiKey = "" → aiFetchedText env = none := by
        intro h
        simp [aiFetchedText, h]
      cases hft : aiFetchedText env with
      | some t =>
          constructor
          · refine ⟨false, some mode, some t, ?_⟩
            simp [generateAIContent, hres, hft]
          · intro hk _
            rw [hkey hk] at hft
            exact Option.noConfusion hft
      | none =>
          constructor
          · refine ⟨false, some mode, some (JVal.str aiFailureMsg), ?_⟩
            simp [generateAIContent, hres, hft]
          · intro hk _
            simp [generateAIContent, hres, hft]

/-- Witness for C9: the shipped configuration (empty credential) with a
current result; the failure text lands in the AI output. -/
theorem claim_C9_witness :
    (generateAIContent ⟨"", FetchOutcome.networkError⟩ "caption"
        ⟨"u", false, none, some ⟨"https://cdn/v.mp4", JVal.str "Cool",
          JVal.nullv, JVal.str "a", JVal.nullv⟩, false, false, none,
        none⟩).aiOutput = some (JVal.str aiFailureMsg) :=
  (claim_C9 ⟨"", FetchOutcome.networkError⟩ "caption"
    ⟨"u", false, none, some ⟨"https://cdn/v.mp4", JVal.str "Cool",
      JVal.nullv, JVal.str "a", JVal.nullv⟩, false, false, none, none⟩).2
    rfl (fun h => Option.noConfusion h)

/-- C10: a query whose text is empty or all whitespace is a complete
no-op: for every fetch environment the state — loading flag, error,
result and AI output included — is returned unchanged, and the result's
independence from the environment shows no request is made. -/
theorem claim_C10 (env : FetchEnv) (s : AppState)
    (h : ∀ c ∈ s.url.data, c.isWhitespace) :
    fetchVideoInfo env s = s := by
  have h1 : s.url.data.dropWhile Char.isWhitespace = [] :=
    List.dropWhile_eq_nil_iff.mpr h
  have ht : jsTrim s.url = "" := by
    unfold jsTrim
    rw [h1]
    rfl
  have hb : (jsTrim s.url == "") = true := by
    rw [ht]
    rfl
  simp [fetchVideoInfo, hb]

/-- Witness for C10 on a whitespace-only query. -/
theorem claim_C10_witness :
    fetchVideoInfo ⟨fun _ => none, FetchOutcome.networkError,
        FetchOutcome.networkError, FetchOutcome.networkError⟩
        ⟨"   ", true, some "e", none, false, false, none, none⟩ =
      ⟨"   ", true, some "e", none, false, false, none, none⟩ :=
  claim_C10 _ _ (by decide)
